import Mathlib

/-
Verification of the rtic-fridge 1-Wire temperature controller.

The Rust sources are shallowly embedded: each bus operation is a pure
function from its inputs (line samples supplied by the environment, bytes
read from the bus, outcomes of lower-level operations) to its result and,
where timing matters, to the trace of pin actions it performs.  Machine
bytes are `Nat` values reduced mod 256 where the source relies on `u8`
wrap-around; `i16`/`i32` values are `Int`; fallible operations return
`Except OWError`.
-/

set_option autoImplicit false
set_option maxRecDepth 8000

namespace RticFridge

/-- Error taxonomy of src/onewire/error.rs (`Error<Infallible>`; the
`Pin` variant carries an `Infallible` value and can never be built, so it
is omitted). -/
inductive OWError where
  | BusNotHigh
  | UnexpectedResponse
  | FamilyCodeMismatch
  | CrcMismatch
  | Timeout
  deriving DecidableEq, Repr

/-- Embedding of `Error::as_str` from src/onewire/error.rs (the `Pin`
arm is unreachable for `Error<Infallible>`). -/
def OWError.as_str : OWError → String
  | .BusNotHigh => "Bus not high"
  | .UnexpectedResponse => "Unexpected response"
  | .FamilyCodeMismatch => "Family code mismatch"
  | .CrcMismatch => "CRC mismatch"
  | .Timeout => "Timeout"

/-- One observable action performed by the bus driver on its open-drain
pin: driving it low, releasing it (set high), a busy delay of `n`
microseconds, or sampling the line level. -/
inductive PinAct where
  | setLow
  | setHigh
  | delayUs (n : Nat)
  | sampleLine
  deriving DecidableEq, Repr

/-- Total number of microseconds spent in `delay_us` calls of a trace. -/
def delayTotal : List PinAct → Nat
  | [] => 0
  | .delayUs n :: r => n + delayTotal r
  | _ :: r => delayTotal r

/-- Embedding of `OneWire::write_bit` (src/onewire/mod.rs lines 57-89) as
the trace of pin actions it performs; the pin operations themselves are
infallible here (`Error<Infallible>` with an infallible pin). -/
def write_bit (bit : Bool) : List PinAct :=
  if bit then
    [.setLow, .delayUs 10, .setHigh, .delayUs 55]
  else
    [.setLow, .delayUs 65, .setHigh, .delayUs 5]

/-- Embedding of the polling loop at the top of `OneWire::reset`
(src/onewire/mod.rs lines 28-35).  `low k` is the level returned by the
k-th `is_low` sample (counting from `k0`); `retries` is the remaining
retry budget (the source starts it at 125).  Returns the loop outcome and
the trace of samples and delays it performs. -/
def resetPoll (low : Nat → Bool) : Nat → Nat → Except OWError Unit × List PinAct
  | k, 0 =>
    if low k then (.error .BusNotHigh, [.sampleLine])
    else (.ok (), [.sampleLine])
  | k, retries + 1 =>
    if low k then
      let r := resetPoll low (k + 1) retries
      (r.1, .sampleLine :: .delayUs 2 :: r.2)
    else (.ok (), [.sampleLine])

/-- The fixed tail of `OneWire::reset` after the line has been seen high
(src/onewire/mod.rs lines 37-53): 480 us low pulse, release, 70 us wait,
presence sample, 410 us wait; `presenceLow` is the sampled level. -/
def resetTail (presenceLow : Bool) : Except OWError Unit × List PinAct :=
  (if presenceLow then .ok () else .error .UnexpectedResponse,
   [.setLow, .delayUs 480, .setHigh, .delayUs 70, .sampleLine, .delayUs 410])

/-- Embedding of `OneWire::reset` (src/onewire/mod.rs lines 26-54).
`low k` is the k-th poll sample of the line, `presenceLow` the presence
sample after the reset pulse. -/
def reset (low : Nat → Bool) (presenceLow : Bool) :
    Except OWError Unit × List PinAct :=
  match resetPoll low 0 125 with
  | (.error e, tr) => (.error e, tr)
  | (.ok _, tr) =>
    let t := resetTail presenceLow
    (t.1, tr ++ t.2)

/-- Expected poll trace when the line reads low `j` times and then high:
j (sample, 2 us delay) pairs followed by the final sample. -/
def pollTrace : Nat → List PinAct
  | 0 => [.sampleLine]
  | j + 1 => .sampleLine :: .delayUs 2 :: pollTrace j

theorem delayTotal_pollTrace (j : Nat) : delayTotal (pollTrace j) = 2 * j := by
  induction j with
  | zero => rfl
  | succ n ih => simp [pollTrace, delayTotal, ih]; ring

theorem delayTotal_append (l1 l2 : List PinAct) :
    delayTotal (l1 ++ l2) = delayTotal l1 + delayTotal l2 := by
  induction l1 with
  | nil => simp [delayTotal]
  | cons a r ih => cases a <;> simp [delayTotal, ih, Nat.add_assoc]

/-- If every sample up to the retry budget reads low, the poll loop fails
with `BusNotHigh` after spending 2 us per retry. -/
theorem resetPoll_allLow (low : Nat → Bool) (retries k : Nat)
    (h : ∀ i, i ≤ retries → low (k + i) = true) :
    resetPoll low k retries = (.error .BusNotHigh, pollTrace retries) := by
  induction retries generalizing k with
  | zero =>
    have h0 : low k = true := by simpa using h 0 (by omega)
    simp only [resetPoll, pollTrace]
    simp [h0]
  | succ n ih =>
    have h0 : low k = true := by simpa using h 0 (by omega)
    have hrec := ih (k + 1) (fun i hi => by
      have := h (i + 1) (by omega)
      simpa [Nat.add_assoc, Nat.add_comm 1 i] using this)
    simp only [resetPoll, pollTrace]
    simp [h0, hrec]

/-- If the first high sample is the j-th one (j within budget), the poll
loop succeeds with the expected trace. -/
theorem resetPoll_firstHigh (low : Nat → Bool) (retries k j : Nat)
    (hj : j ≤ retries) (hlow : ∀ i, i < j → low (k + i) = true)
    (hhigh : low (k + j) = false) :
    resetPoll low k retries = (.ok (), pollTrace j) := by
  induction j generalizing k retries with
  | zero =>
    have h0 : low k = false := by simpa using hhigh
    cases retries with
    | zero => simp only [resetPoll, pollTrace]; simp [h0]
    | succ n => simp only [resetPoll, pollTrace]; simp [h0]
  | succ m ih =>
    have h0 : low k = true := by simpa using hlow 0 (by omega)
    cases retries with
    | zero => omega
    | succ n =>
      have hrec := ih n (k + 1) (by omega)
        (fun i hi => by
          have := hlow (i + 1) (by omega)
          simpa [Nat.add_assoc, Nat.add_comm 1 i] using this)
        (by simpa [Nat.add_assoc, Nat.add_comm 1 m] using hhigh)
      simp only [resetPoll, pollTrace]
      simp [h0, hrec]

/-- C3 counterexample: the claim that the summed delay of
`OneWire::write_bit` is the same for both bit values is false: writing 1
delays 10 + 55 = 65 us while writing 0 delays 65 + 5 = 70 us. -/
theorem claim_C3_counterexample :
    delayTotal (write_bit true) = 65 ∧ delayTotal (write_bit false) = 70 ∧
    ¬ delayTotal (write_bit false) = delayTotal (write_bit true) := by
  refine ⟨rfl, rfl, ?_⟩
  decide

/-- C3 (amended): `OneWire::write_bit` runs one bounded time slot per
call: writing 1 pulls the line low for 10 us, releases it and idles
55 us (65 us of delays in total); writing 0 pulls it low for 65 us,
releases it and idles 5 us (70 us of delays in total, 5 us more than a
1 slot, not the same total). -/
theorem claim_C3_write_bit_slots :
    write_bit true = [.setLow, .delayUs 10, .setHigh, .delayUs 55] ∧
    write_bit false = [.setLow, .delayUs 65, .setHigh, .delayUs 5] ∧
    delayTotal (write_bit true) = 65 ∧
    delayTotal (write_bit false) = 70 := by
  exact ⟨rfl, rfl, rfl, rfl⟩

/-- C7: `OneWire::reset` polls the line every 2 us within a 125-retry
(250 us) budget and fails with `BusNotHigh` if it always reads low;
once the line reads high it drives the 480 us low pulse, releases, waits
70 us, samples, waits 410 us, and returns Ok exactly when the presence
sample read low, `UnexpectedResponse` when it read high. -/
theorem claim_C7_reset_protocol :
    ∀ (low : Nat → Bool) (presenceLow : Bool),
      ((∀ i, i ≤ 125 → low i = true) →
        reset low presenceLow = (.error .BusNotHigh, pollTrace 125) ∧
        delayTotal (pollTrace 125) = 250) ∧
      (∀ j, j ≤ 125 → (∀ i, i < j → low i = true) → low j = false →
        reset low presenceLow =
          ((if presenceLow then .ok () else .error .UnexpectedResponse),
           pollTrace j ++
             [.setLow, .delayUs 480, .setHigh, .delayUs 70, .sampleLine,
              .delayUs 410])) := by
  intro low presenceLow
  constructor
  · intro hall
    have hpoll := resetPoll_allLow low 125 0 (fun i hi => by simpa using hall i hi)
    constructor
    · simp [reset, hpoll]
    · exact delayTotal_pollTrace 125
  · intro j hj hlowpre hhigh
    have hpoll := resetPoll_firstHigh low 125 0 j hj
      (fun i hi => by simpa using hlowpre i hi) (by simpa using hhigh)
    cases presenceLow <;> simp [reset, hpoll, resetTail]

theorem claim_C7_reset_protocol_witness :
    reset (fun _ => true) true = (.error .BusNotHigh, pollTrace 125) ∧
    reset (fun _ => false) true =
      (.ok (), pollTrace 0 ++
        [.setLow, .delayUs 480, .setHigh, .delayUs 70, .sampleLine,
         .delayUs 410]) ∧
    reset (fun _ => false) false =
      (.error .UnexpectedResponse, pollTrace 0 ++
        [.setLow, .delayUs 480, .setHigh, .delayUs 70, .sampleLine,
         .delayUs 410]) := by
  refine ⟨((claim_C7_reset_protocol (fun _ => true) true).1 (fun i _ => rfl)).1, ?_, ?_⟩
  · exact (claim_C7_reset_protocol (fun _ => false) true).2 0 (by omega)
      (fun i hi => absurd hi (Nat.not_lt_zero i)) rfl
  · exact (claim_C7_reset_protocol (fun _ => false) false).2 0 (by omega)
      (fun i hi => absurd hi (Nat.not_lt_zero i)) rfl

/-- Carried enumeration state of `DeviceSearch`
(src/onewire/mod.rs lines 214-221); `rom_no` is the 8-byte candidate
address under construction, little-endian. -/
structure SearchState where
  last_discrepancy : Nat
  last_family_discrepancy : Nat
  last_device_flag : Bool
  rom_no : List Nat
  deriving DecidableEq, Repr

/-- Mutable locals of the 64-bit walk inside `DeviceSearch::search`
(src/onewire/mod.rs lines 225-295), plus `broke` marking the
no-device-responded break and `dirs` the list of direction bits written
so far (which indexes the bus oracle). -/
structure SearchLoopState where
  id_bit_number : Nat
  last_zero : Nat
  rom_byte_number : Nat
  rom_byte_mask : Nat
  rom_no : List Nat
  last_family_discrepancy : Nat
  broke : Bool
  dirs : List Bool
  deriving DecidableEq, Repr

/-- The direction choice of src/onewire/mod.rs lines 248-272 stripped of
its side effects: probe bits differing adopt `id_bit`; at a branch point
(both probe bits low) replay the `rom_no` bit below `last_discrepancy`,
pick 1 at it, and 0 above it. -/
def chooseDirection (ld : Nat) (id_bit cmp_id_bit : Bool) (idn : Nat)
    (romByte mask : Nat) : Bool :=
  if id_bit ≠ cmp_id_bit then id_bit
  else if idn < ld then decide (0 < Nat.land romByte mask)
  else decide (idn = ld)

/-- One iteration of the search walk (src/onewire/mod.rs lines 238-295):
read the two probe bits from the bus oracle, break if both are 1,
otherwise choose the direction, record a chosen 0 in `last_zero` (and in
`last_family_discrepancy` when inside the family-code byte), set or clear
the `rom_no` bit, emit the direction bit, and advance the bit counter and
byte mask (u8 shift: 128 shifted left wraps to 0). -/
def searchStep (bus : List Bool → Bool × Bool) (ld : Nat)
    (st : SearchLoopState) : SearchLoopState :=
  let id_bit := (bus st.dirs).1
  let cmp_id_bit := (bus st.dirs).2
  if id_bit && cmp_id_bit then { st with broke := true }
  else
    let byte := st.rom_no.getD st.rom_byte_number 0
    let sd := chooseDirection ld id_bit cmp_id_bit st.id_bit_number byte
      st.rom_byte_mask
    let isBranch := id_bit == cmp_id_bit
    let lz := if isBranch && !sd then st.id_bit_number else st.last_zero
    let lfd :=
      if isBranch && !sd && decide (st.id_bit_number < 9) then st.id_bit_number
      else st.last_family_discrepancy
    let newByte :=
      if sd then Nat.lor byte st.rom_byte_mask
      else Nat.land byte (Nat.xor 255 st.rom_byte_mask)
    let mask2 := st.rom_byte_mask * 2 % 256
    { id_bit_number := st.id_bit_number + 1
      last_zero := lz
      rom_byte_number := if mask2 = 0 then st.rom_byte_number + 1 else st.rom_byte_number
      rom_byte_mask := if mask2 = 0 then 1 else mask2
      rom_no := st.rom_no.set st.rom_byte_number newByte
      last_family_discrepancy := lfd
      broke := false
      dirs := st.dirs ++ [sd] }

/-- The while loop of `DeviceSearch::search`: runs `searchStep` while
`rom_byte_number < 8` and the walk has not broken; 65 units of fuel
strictly exceed the at most 64 iterations the guard permits. -/
def searchLoop (bus : List Bool → Bool × Bool) (ld : Nat) :
    Nat → SearchLoopState → SearchLoopState
  | 0, st => st
  | fuel + 1, st =>
    if st.broke ∨ 8 ≤ st.rom_byte_number then st
    else searchLoop bus ld fuel (searchStep bus ld st)

/-- Initial loop locals of `DeviceSearch::search`
(src/onewire/mod.rs lines 225-229). -/
def searchInit (s : SearchState) : SearchLoopState :=
  { id_bit_number := 1
    last_zero := 0
    rom_byte_number := 0
    rom_byte_mask := 1
    rom_no := s.rom_no
    last_family_discrepancy := s.last_family_discrepancy
    broke := false
    dirs := [] }

/-- `u64::from_le_bytes`: assemble a little-endian byte list into a
number. -/
def leBytesToNat : List Nat → Nat
  | [] => 0
  | b :: r => b % 256 + 256 * leBytesToNat r

/-- Embedding of `DeviceSearch::search` (src/onewire/mod.rs lines
224-318).  `bus` maps the direction bits written so far to the next two
probe bits; `resetOutcome` is the outcome of the initial bus reset
(propagated by the source's question-mark operator); the result pairs the
optional found address with the updated carried state. -/
def search (bus : List Bool → Bool × Bool) (resetOutcome : Except OWError Unit)
    (s : SearchState) : Except OWError (Option Nat × SearchState) :=
  if s.last_device_flag then
    .ok (none, { s with last_discrepancy := 0, last_device_flag := false })
  else
    match resetOutcome with
    | .error e => .error e
    | .ok _ =>
      let fin := searchLoop bus s.last_discrepancy 65 (searchInit s)
      if 65 ≤ fin.id_bit_number then
        if fin.rom_no.getD 0 0 = 0 then
          .ok (none,
            { last_discrepancy := 0
              last_family_discrepancy := fin.last_family_discrepancy
              last_device_flag := false
              rom_no := fin.rom_no })
        else
          .ok (some (leBytesToNat fin.rom_no),
            { last_discrepancy := fin.last_zero
              last_family_discrepancy := fin.last_family_discrepancy
              last_device_flag := decide (fin.last_zero = 0)
              rom_no := fin.rom_no })
      else
        .ok (none,
          { last_discrepancy := 0
            last_family_discrepancy := fin.last_family_discrepancy
            last_device_flag := false
            rom_no := fin.rom_no })

/-- Concrete bus oracle for the C1 counterexample: a branch point (both
probe bits 0) at the first bit position, then disagreeing probe bits
with id_bit 0 at every later position. -/
def c1Bus : List Bool → Bool × Bool :=
  fun dirs => if dirs = [] then (false, false) else (false, true)

/-- Carried state entering the C1 counterexample pass: the previous pass
left its unresolved branch at bit index 1. -/
def c1State : SearchState := ⟨1, 0, false, List.replicate 8 0⟩

/-- C1 counterexample: at a branch point whose bit index equals the
carried `last_discrepancy` (= 1) the walk does choose 1, but the index
is NOT recorded as the new last zero: `last_zero` stays 0 after the
step, and the full pass ends with `last_discrepancy` 0 (device found,
flag set), not 1 as the claim states. -/
theorem claim_C1_counterexample :
    c1Bus [] = (false, false) ∧
    (searchInit c1State).id_bit_number = 1 ∧
    (searchStep c1Bus 1 (searchInit c1State)).dirs = [true] ∧
    (searchStep c1Bus 1 (searchInit c1State)).last_zero = 0 ∧
    ¬ (searchStep c1Bus 1 (searchInit c1State)).last_zero = 1 ∧
    search c1Bus (.ok ()) c1State =
      .ok (some 1,
        { last_discrepancy := 0
          last_family_discrepancy := 0
          last_device_flag := true
          rom_no := [1, 0, 0, 0, 0, 0, 0, 0] }) := by
  refine ⟨rfl, rfl, rfl, rfl, by decide, ?_⟩
  rfl

/-- C1 (amended): at every branch point (both probe bits 0) of
`DeviceSearch::search`: below the carried `last_discrepancy` the bit
previously resolved in `rom_no` is replayed; at it, 1 is chosen (the
index is not recorded — the last zero records only indices where 0 was
chosen); above it, 0 is chosen; and exactly when 0 is chosen the index
becomes the new last zero and, if it falls within the first
(family-code) byte, the new `last_family_discrepancy`. -/
theorem claim_C1_branch_choice :
    ∀ (bus : List Bool → Bool × Bool) (ld : Nat) (st : SearchLoopState),
      bus st.dirs = (false, false) →
      ∃ d : Bool,
        (searchStep bus ld st).dirs = st.dirs ++ [d] ∧
        (st.id_bit_number < ld →
          d = decide (0 < Nat.land (st.rom_no.getD st.rom_byte_number 0)
            st.rom_byte_mask)) ∧
        (st.id_bit_number = ld → d = true) ∧
        (ld < st.id_bit_number → d = false) ∧
        (d = false →
          (searchStep bus ld st).last_zero = st.id_bit_number ∧
          (st.id_bit_number < 9 →
            (searchStep bus ld st).last_family_discrepancy = st.id_bit_number) ∧
          (¬ st.id_bit_number < 9 →
            (searchStep bus ld st).last_family_discrepancy =
              st.last_family_discrepancy)) ∧
        (d = true →
          (searchStep bus ld st).last_zero = st.last_zero ∧
          (searchStep bus ld st).last_family_discrepancy =
            st.last_family_discrepancy) := by
  intro bus ld st h
  refine ⟨chooseDirection ld false false st.id_bit_number
    (st.rom_no.getD st.rom_byte_number 0) st.rom_byte_mask, ?_, ?_, ?_, ?_, ?_, ?_⟩
  · simp [searchStep, h]
  · intro hlt
    simp [chooseDirection, hlt]
  · intro heq
    simp [chooseDirection, heq]
  · intro hgt
    have h1 : ¬ st.id_bit_number < ld := by omega
    have h2 : ¬ st.id_bit_number = ld := by omega
    simp [chooseDirection, h1, h2]
  · intro hd
    simp only [searchStep, h]
    simp only [List.getD, List.get?_eq_getElem?] at hd
    simp [hd]
    omega
  · intro hd
    simp only [searchStep, h]
    simp only [List.getD, List.get?_eq_getElem?] at hd
    simp [hd]

theorem claim_C1_branch_choice_witness :
    ∃ d : Bool,
      (searchStep c1Bus 1 (searchInit c1State)).dirs =
        (searchInit c1State).dirs ++ [d] ∧
      ((searchInit c1State).id_bit_number < 1 →
        d = decide (0 < Nat.land
          ((searchInit c1State).rom_no.getD
            (searchInit c1State).rom_byte_number 0)
          (searchInit c1State).rom_byte_mask)) ∧
      ((searchInit c1State).id_bit_number = 1 → d = true) ∧
      (1 < (searchInit c1State).id_bit_number → d = false) ∧
      (d = false →
        (searchStep c1Bus 1 (searchInit c1State)).last_zero =
          (searchInit c1State).id_bit_number ∧
        ((searchInit c1State).id_bit_number < 9 →
          (searchStep c1Bus 1 (searchInit c1State)).last_family_discrepancy =
            (searchInit c1State).id_bit_number) ∧
        (¬ (searchInit c1State).id_bit_number < 9 →
          (searchStep c1Bus 1 (searchInit c1State)).last_family_discrepancy =
            (searchInit c1State).last_family_discrepancy)) ∧
      (d = true →
        (searchStep c1Bus 1 (searchInit c1State)).last_zero =
          (searchInit c1State).last_zero ∧
        (searchStep c1Bus 1 (searchInit c1State)).last_family_discrepancy =
          (searchInit c1State).last_family_discrepancy) :=
  claim_C1_branch_choice c1Bus 1 (searchInit c1State) rfl

/-- C2: a `DeviceSearch::search` call that finds no candidate — the
enumeration was already exhausted (`last_device_flag` set), or both
probe bits read 1 so the walk aborts — returns none and resets the
carried state to `last_discrepancy` 0 and `last_device_flag` false (so
the next call restarts from scratch); every none result resets the state
that way; and a successful pass whose new `last_discrepancy` resolves to
0 has set `last_device_flag`. -/
theorem search_flag_true (bus : List Bool → Bool × Bool)
    (r : Except OWError Unit) (ld lfd : Nat) (rom : List Nat) :
    search bus r ⟨ld, lfd, true, rom⟩ = .ok (none, ⟨0, lfd, false, rom⟩) := rfl

theorem search_flag_false (bus : List Bool → Bool × Bool) (u : Unit)
    (ld lfd : Nat) (rom : List Nat) :
    search bus (.ok u) ⟨ld, lfd, false, rom⟩ =
      (if 65 ≤ (searchLoop bus ld 65 (searchInit ⟨ld, lfd, false, rom⟩)).id_bit_number then
        if (searchLoop bus ld 65 (searchInit ⟨ld, lfd, false, rom⟩)).rom_no.getD 0 0 = 0 then
          .ok (none,
            ⟨0, (searchLoop bus ld 65 (searchInit ⟨ld, lfd, false, rom⟩)).last_family_discrepancy,
             false, (searchLoop bus ld 65 (searchInit ⟨ld, lfd, false, rom⟩)).rom_no⟩)
        else
          .ok (some (leBytesToNat (searchLoop bus ld 65 (searchInit ⟨ld, lfd, false, rom⟩)).rom_no),
            ⟨(searchLoop bus ld 65 (searchInit ⟨ld, lfd, false, rom⟩)).last_zero,
             (searchLoop bus ld 65 (searchInit ⟨ld, lfd, false, rom⟩)).last_family_discrepancy,
             decide ((searchLoop bus ld 65 (searchInit ⟨ld, lfd, false, rom⟩)).last_zero = 0),
             (searchLoop bus ld 65 (searchInit ⟨ld, lfd, false, rom⟩)).rom_no⟩)
      else
        .ok (none,
          ⟨0, (searchLoop bus ld 65 (searchInit ⟨ld, lfd, false, rom⟩)).last_family_discrepancy,
           false, (searchLoop bus ld 65 (searchInit ⟨ld, lfd, false, rom⟩)).rom_no⟩)) := rfl

theorem claim_C2_search_exhaustion :
    ∀ (bus : List Bool → Bool × Bool) (r : Except OWError Unit) (s : SearchState),
      (s.last_device_flag = true →
        search bus r s =
          .ok (none, { s with last_discrepancy := 0, last_device_flag := false })) ∧
      (∀ s', search bus r s = .ok (none, s') →
        s'.last_discrepancy = 0 ∧ s'.last_device_flag = false) ∧
      (s.last_device_flag = false → r = .ok () → bus [] = (true, true) →
        search bus r s =
          .ok (none, { s with last_discrepancy := 0, last_device_flag := false })) ∧
      (∀ a s', search bus r s = .ok (some a, s') → s'.last_discrepancy = 0 →
        s'.last_device_flag = true) := by
  intro bus r s
  obtain ⟨ld, lfd, flag, rom⟩ := s
  refine ⟨?_, ?_, ?_, ?_⟩
  · intro hf
    simp only at hf
    subst hf
    exact search_flag_true bus r ld lfd rom
  · intro s' h
    cases flag with
    | true =>
      rw [search_flag_true] at h
      simp only [Except.ok.injEq, Prod.mk.injEq, true_and] at h
      subst h
      exact ⟨rfl, rfl⟩
    | false =>
      cases r with
      | error e => exact absurd h (by rw [show search bus (.error e) ⟨ld, lfd, false, rom⟩ = .error e from rfl]; simp)
      | ok u =>
        rw [search_flag_false] at h
        split at h
        · split at h
          · simp only [Except.ok.injEq, Prod.mk.injEq, true_and] at h
            subst h
            exact ⟨rfl, rfl⟩
          · simp at h
        · simp only [Except.ok.injEq, Prod.mk.injEq, true_and] at h
          subst h
          exact ⟨rfl, rfl⟩
  · intro hf hr hbus
    simp only at hf
    subst hf
    subst hr
    have hstep : searchStep bus ld (searchInit ⟨ld, lfd, false, rom⟩) =
        ⟨1, 0, 0, 1, rom, lfd, true, []⟩ := by
      simp [searchStep, searchInit, hbus]
    have hloop : searchLoop bus ld 65 (searchInit ⟨ld, lfd, false, rom⟩) =
        ⟨1, 0, 0, 1, rom, lfd, true, []⟩ := by
      have h1 : searchLoop bus ld 65 (searchInit ⟨ld, lfd, false, rom⟩) =
          searchLoop bus ld 64 (searchStep bus ld (searchInit ⟨ld, lfd, false, rom⟩)) := by
        simp [searchLoop, searchInit]
      rw [h1, hstep]
      rfl
    rw [search_flag_false bus () ld lfd rom, hloop]
    norm_num
  · intro a s' h hld
    cases flag with
    | true =>
      rw [search_flag_true] at h
      simp at h
    | false =>
      cases r with
      | error e => exact absurd h (by rw [show search bus (.error e) ⟨ld, lfd, false, rom⟩ = .error e from rfl]; simp)
      | ok u =>
        rw [search_flag_false] at h
        split at h
        · split at h
          · simp at h
          · simp only [Except.ok.injEq, Prod.mk.injEq] at h
            obtain ⟨-, h⟩ := h
            subst h
            simp only at hld ⊢
            simp [hld]
        · simp at h

theorem claim_C2_search_exhaustion_witness :
    search (fun _ => (true, true)) (.ok ()) ⟨7, 2, true, List.replicate 8 0⟩ =
      .ok (none, ⟨0, 2, false, List.replicate 8 0⟩) ∧
    search (fun _ => (true, true)) (.ok ()) ⟨7, 2, false, List.replicate 8 0⟩ =
      .ok (none, ⟨0, 2, false, List.replicate 8 0⟩) :=
  ⟨(claim_C2_search_exhaustion (fun _ => (true, true)) (.ok ())
      ⟨7, 2, true, List.replicate 8 0⟩).1 rfl,
   (claim_C2_search_exhaustion (fun _ => (true, true)) (.ok ())
      ⟨7, 2, false, List.replicate 8 0⟩).2.2.1 rfl rfl rfl⟩

/-- DS18B20 resolution variants (src/ds18b20.rs lines 137-143). -/
inductive Resolution where
  | Bits9
  | Bits10
  | Bits11
  | Bits12
  deriving DecidableEq, Repr

/-- Embedding of `Resolution::from_config_register`
(src/ds18b20.rs lines 146-154); the input is the configuration byte read
from the scratchpad. -/
def Resolution.from_config_register (reg : Nat) : Option Resolution :=
  if reg = 0x1F then some .Bits9
  else if reg = 0x3F then some .Bits10
  else if reg = 0x5F then some .Bits11
  else if reg = 0x7F then some .Bits12
  else none

/-- Embedding of `Resolution::to_config_register`
(src/ds18b20.rs lines 156-163). -/
def Resolution.to_config_register : Resolution → Nat
  | .Bits9 => 0x1F
  | .Bits10 => 0x3F
  | .Bits11 => 0x5F
  | .Bits12 => 0x7F

/-- Embedding of `Resolution::conversion_time` (milliseconds,
src/ds18b20.rs lines 166-173). -/
def Resolution.conversion_time : Resolution → Nat
  | .Bits9 => 94
  | .Bits10 => 188
  | .Bits11 => 375
  | .Bits12 => 750

/-- Eight shift-and-xor rounds of the Dallas/Maxim CRC-8 over one byte.
Modelled from the spec: src/onewire/crc.rs is absent from the snapshot;
the spec fixes the reflected CRC-8 with polynomial x^8+x^5+x^4+1, i.e.
shift right and xor with 0x8C on a set low bit. -/
def crc8Bits : Nat → Nat → Nat → Nat
  | 0, crc, _ => crc
  | n + 1, crc, byte =>
    let mix := Nat.land (Nat.xor crc byte) 1
    let c := crc / 2
    crc8Bits n (if mix = 1 then Nat.xor c 0x8C else c) (byte / 2)

/-- Dallas/Maxim CRC-8 of a byte list, initial value 0.  Modelled from
the spec (src/onewire/crc.rs is absent from the snapshot). -/
def crc8 (data : List Nat) : Nat :=
  data.foldl (fun c b => crc8Bits 8 c b) 0

/-- Validation of a block whose last byte is its CRC.  Modelled from the
spec: recompute the checksum of all bytes preceding the trailing CRC
byte and compare; mismatch surfaces as `CrcMismatch`
(src/onewire/crc.rs `check_crc8` is absent from the snapshot). -/
def check_crc8 (data : List Nat) : Except OWError Unit :=
  if crc8 data.dropLast = (data.getLast?).getD 0 then .ok ()
  else .error .CrcMismatch

/-- Embedding of `Ds18b20::read_scratchpad` (src/ds18b20.rs lines
31-46): `io` is the outcome of the `send_command` entry sequence,
`bytes` the nine bytes subsequently read from the bus; the CRC is
checked before the buffer is returned. -/
def read_scratchpad (io : Except OWError Unit) (bytes : List Nat) :
    Except OWError (List Nat) := do
  let _ ← io
  let _ ← check_crc8 bytes
  pure bytes

/-- Embedding of `Ds18b20::resolution` (src/ds18b20.rs lines 63-70):
read the scratchpad and decode byte 4, rejecting unrecognized patterns
with `UnexpectedResponse`. -/
def ds_resolution (io : Except OWError Unit) (bytes : List Nat) :
    Except OWError Resolution := do
  let buf ← read_scratchpad io bytes
  match Resolution.from_config_register (buf.getD 4 0) with
  | some r => pure r
  | none => .error .UnexpectedResponse

/-- Embedding of `Ds18b20::set_resolution` (src/ds18b20.rs lines 73-83)
returning the 3-byte payload handed to `write_scratchpad`: read the
scratchpad (`io1` the entry-sequence outcome, `bytes` the bus bytes),
overwrite byte 4 with the register pattern, and write back bytes 2, 3
and 4; `io2` is the outcome of the write's bus traffic. -/
def ds_set_resolution (io1 io2 : Except OWError Unit) (bytes : List Nat)
    (res : Resolution) : Except OWError (List Nat) := do
  let buf ← read_scratchpad io1 bytes
  let buf2 := buf.set 4 res.to_config_register
  let payload := [buf2.getD 2 0, buf2.getD 3 0, buf2.getD 4 0]
  let _ ← io2
  pure payload

/-- Resolution-dependent masking of the scratchpad's temperature LSB
(src/ds18b20.rs lines 109-114). -/
def maskTempLsb (r : Resolution) (b : Nat) : Nat :=
  match r with
  | .Bits9 => Nat.land b 0xF8
  | .Bits10 => Nat.land b 0xFC
  | .Bits11 => Nat.land b 0xFE
  | .Bits12 => b

/-- `i16::from_le_bytes [b0, b1]` on byte values: assemble the 16-bit
little-endian value and interpret it in two's complement. -/
def i16OfLe (b0 b1 : Nat) : Int :=
  let u := b0 % 256 + 256 * (b1 % 256)
  if u < 32768 then (u : Int) else (u : Int) - 65536

/-- Embedding of `Ds18b20::read_data` (src/ds18b20.rs lines 99-118),
returning the bits of the `Temperature` fixed-point value
(`Temperature::from_bits(i32::from(value))`, 4 fractional bits, so the
bits count sixteenths of a degree Celsius). -/
def ds_read_data (io : Except OWError Unit) (bytes : List Nat) :
    Except OWError Int := do
  let buf ← read_scratchpad io bytes
  match Resolution.from_config_register (buf.getD 4 0) with
  | none => .error .UnexpectedResponse
  | some r => pure (i16OfLe (maskTempLsb r (buf.getD 0 0)) (buf.getD 1 0))

/-- Device-side scratchpad contents of one DS18B20.  Modelled from the
spec: the snapshot has no device model; the spec fixes the layout
[tempLSB, tempMSB, TH, TL, config, 0xFF, 0xFF, 0xFF, CRC] with the
trailing byte the CRC-8 of the preceding eight. -/
structure DeviceScratchpad where
  t0 : Nat
  t1 : Nat
  th : Nat
  tl : Nat
  cfg : Nat
  deriving DecidableEq, Repr

/-- The nine bytes the device transmits for a scratchpad read. -/
def DeviceScratchpad.bytes (d : DeviceScratchpad) : List Nat :=
  [d.t0, d.t1, d.th, d.tl, d.cfg, 0xFF, 0xFF, 0xFF,
   crc8 [d.t0, d.t1, d.th, d.tl, d.cfg, 0xFF, 0xFF, 0xFF]]

/-- Device-side effect of a 3-byte `write_scratchpad` payload: the TH,
TL and configuration registers take the three bytes, in that order.
Modelled from the spec (scratchpad write transfers exactly those three
bytes). -/
def DeviceScratchpad.applyWrite (d : DeviceScratchpad) (payload : List Nat) :
    DeviceScratchpad :=
  { d with
    th := payload.getD 0 0
    tl := payload.getD 1 0
    cfg := payload.getD 2 0 }

/-- `Ds18b20::set_resolution` against the device model: the payload the
driver writes is applied to the device registers. -/
def ds_set_resolution_device (d : DeviceScratchpad) (res : Resolution) :
    Except OWError DeviceScratchpad := do
  let payload ← ds_set_resolution (.ok ()) (.ok ()) d.bytes res
  pure (d.applyWrite payload)

instance {e a : Type} [DecidableEq e] [DecidableEq a] : DecidableEq (Except e a) := fun x y =>
  match x, y with
  | .error u, .error v =>
    if h : u = v then isTrue (by rw [h]) else isFalse (by simp [h])
  | .ok u, .ok v =>
    if h : u = v then isTrue (by rw [h]) else isFalse (by simp [h])
  | .error _, .ok _ => isFalse (by simp)
  | .ok _, .error _ => isFalse (by simp)

theorem read_scratchpad_ok (bytes : List Nat) (h : check_crc8 bytes = .ok ()) :
    read_scratchpad (.ok ()) bytes = .ok bytes := by
  unfold read_scratchpad
  simp only [h]
  rfl

theorem check_crc8_device (d : DeviceScratchpad) : check_crc8 d.bytes = .ok () := by
  have h1 : d.bytes.dropLast = [d.t0, d.t1, d.th, d.tl, d.cfg, 255, 255, 255] := rfl
  have h2 : (d.bytes.getLast?).getD 0 =
      crc8 [d.t0, d.t1, d.th, d.tl, d.cfg, 255, 255, 255] := rfl
  unfold check_crc8
  rw [h1, h2, if_pos rfl]

theorem read_scratchpad_device (d : DeviceScratchpad) :
    read_scratchpad (.ok ()) d.bytes = .ok d.bytes :=
  read_scratchpad_ok d.bytes (check_crc8_device d)

theorem ds_resolution_device (d : DeviceScratchpad) :
    ds_resolution (.ok ()) d.bytes =
      (match Resolution.from_config_register d.cfg with
       | some r => .ok r
       | none => .error .UnexpectedResponse) := by
  unfold ds_resolution
  rw [read_scratchpad_device d]
  rfl

/-- C5: `Resolution` maps bijectively to its configuration byte
(9/10/11/12 bits to 0x1F/0x3F/0x5F/0x7F) and to its minimum conversion
time (94/188/375/750 ms); every byte outside the four patterns makes
`Ds18b20::resolution` return `UnexpectedResponse`; and against the
device scratchpad model, `set_resolution res` followed by `resolution`
yields `res` for every variant. -/
theorem claim_C5_resolution_bijection :
    (∀ r : Resolution, Resolution.from_config_register r.to_config_register = some r) ∧
    (Resolution.Bits9.conversion_time = 94 ∧ Resolution.Bits10.conversion_time = 188 ∧
     Resolution.Bits11.conversion_time = 375 ∧ Resolution.Bits12.conversion_time = 750) ∧
    (∀ b : Nat, b ≠ 0x1F → b ≠ 0x3F → b ≠ 0x5F → b ≠ 0x7F →
      Resolution.from_config_register b = none) ∧
    (∀ (bytes : List Nat) (b : Nat), check_crc8 bytes = .ok () →
      bytes.getD 4 0 = b → b ≠ 0x1F → b ≠ 0x3F → b ≠ 0x5F → b ≠ 0x7F →
      ds_resolution (.ok ()) bytes = .error .UnexpectedResponse) ∧
    (∀ (d : DeviceScratchpad) (r : Resolution),
      ds_set_resolution_device d r =
        .ok ⟨d.t0, d.t1, d.th, d.tl, r.to_config_register⟩ ∧
      ds_resolution (.ok ())
        (DeviceScratchpad.bytes ⟨d.t0, d.t1, d.th, d.tl, r.to_config_register⟩) =
        .ok r) := by
  refine ⟨?_, ⟨rfl, rfl, rfl, rfl⟩, ?_, ?_, ?_⟩
  · intro r
    cases r <;> rfl
  · intro b h1 h2 h3 h4
    simp [Resolution.from_config_register, h1, h2, h3, h4]
  · intro bytes b hcrc hb h1 h2 h3 h4
    have hfc : Resolution.from_config_register (bytes.getD 4 0) = none := by
      rw [hb]
      simp [Resolution.from_config_register, h1, h2, h3, h4]
    unfold ds_resolution
    rw [read_scratchpad_ok bytes hcrc]
    show (match Resolution.from_config_register (bytes.getD 4 0) with
          | some r => (pure r : Except OWError Resolution)
          | none => .error .UnexpectedResponse) = .error .UnexpectedResponse
    rw [hfc]
  · intro d r
    constructor
    · unfold ds_set_resolution_device ds_set_resolution
      rw [read_scratchpad_device d]
      rfl
    · rw [ds_resolution_device ⟨d.t0, d.t1, d.th, d.tl, r.to_config_register⟩]
      cases r <;> rfl

theorem claim_C5_resolution_bijection_witness :
    ds_resolution (.ok ()) [0, 0, 0, 0, 0, 255, 255, 255, 102] =
      .error .UnexpectedResponse ∧
    ds_set_resolution_device ⟨0x50, 0x05, 0x4B, 0x46, 0x7F⟩ .Bits9 =
      .ok ⟨0x50, 0x05, 0x4B, 0x46, 0x1F⟩ ∧
    ds_resolution (.ok ()) (DeviceScratchpad.bytes ⟨0x50, 0x05, 0x4B, 0x46, 0x1F⟩) =
      .ok .Bits9 :=
  ⟨claim_C5_resolution_bijection.2.2.2.1 [0, 0, 0, 0, 0, 255, 255, 255, 102] 0
      rfl rfl (by decide) (by decide) (by decide) (by decide),
   (claim_C5_resolution_bijection.2.2.2.2 ⟨0x50, 0x05, 0x4B, 0x46, 0x7F⟩ .Bits9).1,
   (claim_C5_resolution_bijection.2.2.2.2 ⟨0x50, 0x05, 0x4B, 0x46, 0x7F⟩ .Bits9).2⟩

/-- C6: `Ds18b20::read_data` masks off the temperature LSB bits not
significant at the configured resolution (3 at 9-bit, 2 at 10-bit, 1 at
11-bit, none at 12-bit), then decodes scratchpad bytes 0 and 1 as a
little-endian two's-complement 16-bit count of sixteenths of a degree:
the datasheet power-on scratchpad 0x50, 0x05 at 12-bit decodes to
1360 sixteenths = +85 degrees, and 0x91, 0xFF decodes to -111 sixteenths
= -6.9375 degrees, a small negative value. -/
theorem claim_C6_read_data_decode :
    (∀ b : Nat, b < 256 →
      maskTempLsb .Bits9 b = b - b % 8 ∧
      maskTempLsb .Bits10 b = b - b % 4 ∧
      maskTempLsb .Bits11 b = b - b % 2 ∧
      maskTempLsb .Bits12 b = b) ∧
    (∀ (bytes : List Nat) (b0 b1 : Nat), check_crc8 bytes = .ok () →
      bytes.getD 0 0 = b0 → bytes.getD 1 0 = b1 → bytes.getD 4 0 = 0x7F →
      ds_read_data (.ok ()) bytes = .ok (i16OfLe b0 b1)) ∧
    ds_read_data (.ok ())
      [0x50, 0x05, 0x4B, 0x46, 0x7F, 0xFF, 0xFF, 0xFF, 120] = .ok 1360 ∧
    (1360 : Int) = 16 * 85 ∧
    ds_read_data (.ok ())
      [0x91, 0xFF, 0x4B, 0x46, 0x7F, 0xFF, 0xFF, 0xFF, 47] = .ok (-111) ∧
    (-111 : Int) < 0 ∧ (-16 : Int) * 16 < -111 := by
  refine ⟨by decide, ?_, rfl, by decide, rfl, by decide, by decide⟩
  intro bytes b0 b1 hcrc h0 h1 h4
  have hfc : Resolution.from_config_register (bytes.getD 4 0) = some .Bits12 := by
    rw [h4]
    rfl
  unfold ds_read_data
  rw [read_scratchpad_ok bytes hcrc]
  show (match Resolution.from_config_register (bytes.getD 4 0) with
        | none => (Except.error OWError.UnexpectedResponse : Except OWError Int)
        | some r =>
          (pure (i16OfLe (maskTempLsb r (bytes.getD 0 0)) (bytes.getD 1 0)) :
            Except OWError Int)) = .ok (i16OfLe b0 b1)
  rw [hfc, h0, h1]
  rfl

theorem claim_C6_read_data_decode_witness :
    ds_read_data (.ok ())
      [0x50, 0x05, 0x4B, 0x46, 0x7F, 0xFF, 0xFF, 0xFF, 120] =
      .ok (i16OfLe 0x50 0x05) ∧ i16OfLe 0x50 0x05 = 1360 :=
  ⟨claim_C6_read_data_decode.2.1
      [0x50, 0x05, 0x4B, 0x46, 0x7F, 0xFF, 0xFF, 0xFF, 120] 0x50 0x05
      rfl rfl rfl rfl,
   by decide⟩

/-- C10: `Ds18b20::set_resolution` is a read-modify-write that changes
only the configuration byte: the TH and TL alarm bytes of the 3-byte
`write_scratchpad` payload are exactly bytes 2 and 3 of the scratchpad
just read, unchanged, and the third byte is the register pattern of the
requested resolution. -/
theorem claim_C10_set_resolution_frame :
    ∀ (io2 : Except OWError Unit) (bytes : List Nat) (res : Resolution),
      check_crc8 bytes = .ok () → io2 = .ok () → 5 ≤ bytes.length →
      ds_set_resolution (.ok ()) io2 bytes res =
        .ok [bytes.getD 2 0, bytes.getD 3 0, res.to_config_register] := by
  intro io2 bytes res hcrc hio hlen
  subst hio
  have h2 : (bytes.set 4 res.to_config_register).getD 2 0 = bytes.getD 2 0 := by
    simp [List.getD, List.get?_eq_getElem?]
  have h3 : (bytes.set 4 res.to_config_register).getD 3 0 = bytes.getD 3 0 := by
    simp [List.getD, List.get?_eq_getElem?]
  have h4 : (bytes.set 4 res.to_config_register).getD 4 0 = res.to_config_register := by
    simp [List.getD, List.get?_eq_getElem?]
    rw [List.getElem?_set_eq_of_lt res.to_config_register (by omega)]
    rfl
  unfold ds_set_resolution
  rw [read_scratchpad_ok bytes hcrc]
  show (.ok [(bytes.set 4 res.to_config_register).getD 2 0,
             (bytes.set 4 res.to_config_register).getD 3 0,
             (bytes.set 4 res.to_config_register).getD 4 0] :
        Except OWError (List Nat)) =
    .ok [bytes.getD 2 0, bytes.getD 3 0, res.to_config_register]
  rw [h2, h3, h4]

theorem claim_C10_set_resolution_frame_witness :
    ds_set_resolution (.ok ()) (.ok ())
      [0x50, 0x05, 0x4B, 0x46, 0x7F, 0xFF, 0xFF, 0xFF, 120] .Bits9 =
      .ok [0x4B, 0x46, 0x1F] := by
  have h := claim_C10_set_resolution_frame (.ok ())
    [0x50, 0x05, 0x4B, 0x46, 0x7F, 0xFF, 0xFF, 0xFF, 120] .Bits9
    rfl rfl (by decide)
  simpa using h

/-- Two's-complement wrap of a signed 32-bit value (release-mode `i32`
addition semantics). -/
def wrap32 (z : Int) : Int := (z + 2 ^ 31) % 2 ^ 32 - 2 ^ 31

/-- `temps.iter().sum::<Temperature>()` on the underlying bits: fold of
`i32` addition starting from zero. -/
def sumTempBits (ts : List Int) : Int :=
  ts.foldl (fun a b => wrap32 (a + b)) 0

/-- Sequential collection of the per-sensor `read_data` results in the
loop of `Ds18b20Thermometer::read` (src/thermometer/ds18b20.rs lines
78-83): the first error returns early (the question-mark operator). -/
def collectTemps : List (Except OWError Int) → Except OWError (List Int)
  | [] => .ok []
  | .error e :: _ => .error e
  | .ok t :: rest =>
    match collectTemps rest with
    | .error e => .error e
    | .ok ts => .ok (t :: ts)

/-- Embedding of `Ds18b20Thermometer::read` (src/thermometer/ds18b20.rs
lines 68-90) over Temperature bits: `send` is the outcome of the
broadcast convert command, `reads` the per-registered-sensor `read_data`
outcomes (one entry per element of `therms`, in order); errors
propagate through the question-mark operator.  An empty result
collection yields `Timeout`; otherwise `sum / (len as i32)` of the
fixed crate divides the bit representation by the integer with Rust
`/`, truncating toward zero. -/
def ds_therm_read (send : Except OWError Unit)
    (reads : List (Except OWError Int)) : Except OWError Int :=
  match send with
  | .error e => .error e
  | .ok _ =>
    match collectTemps reads with
    | .error e => .error e
    | .ok temps =>
      if temps.isEmpty then .error .Timeout
      else .ok (Int.tdiv (sumTempBits temps) temps.length)

theorem collectTemps_length (reads : List (Except OWError Int))
    (ts : List Int) (h : collectTemps reads = .ok ts) :
    ts.length = reads.length := by
  induction reads generalizing ts with
  | nil =>
    simp only [collectTemps] at h
    cases h
    rfl
  | cons r rest ih =>
    cases r with
    | error e => simp [collectTemps] at h
    | ok t =>
      simp only [collectTemps] at h
      cases hrec : collectTemps rest with
      | error e => rw [hrec] at h; simp at h
      | ok ts2 =>
        rw [hrec] at h
        simp only [Except.ok.injEq] at h
        subst h
        simp [ih ts2 hrec]

theorem collectTemps_error_mem (reads : List (Except OWError Int))
    (e : OWError) (h : collectTemps reads = .error e) :
    (Except.error e : Except OWError Int) ∈ reads := by
  induction reads generalizing e with
  | nil => simp [collectTemps] at h
  | cons r rest ih =>
    cases r with
    | error f =>
      simp only [collectTemps, Except.error.injEq] at h
      subst h
      exact List.mem_cons_self _ _
    | ok t =>
      simp only [collectTemps] at h
      cases hrec : collectTemps rest with
      | error f =>
        rw [hrec] at h
        simp only [Except.error.injEq] at h
        subst h
        exact List.mem_cons_of_mem _ (ih f hrec)
      | ok ts2 => rw [hrec] at h; simp at h

theorem collectTemps_all_ok (ts : List Int) :
    collectTemps (ts.map .ok) = .ok ts := by
  induction ts with
  | nil => rfl
  | cons t rest ih => simp [List.map, collectTemps, ih]

theorem collectTemps_first_error (ts : List Int) (e : OWError)
    (rest : List (Except OWError Int)) :
    collectTemps (ts.map .ok ++ .error e :: rest) = .error e := by
  induction ts with
  | nil => rfl
  | cons t ts2 ih => simp [List.map, List.cons_append, collectTemps, ih]

theorem ds_therm_read_collected (reads : List (Except OWError Int)) :
    ds_therm_read (.ok ()) reads =
      (match collectTemps reads with
       | .error e => .error e
       | .ok temps =>
         if temps.isEmpty then .error .Timeout
         else .ok (Int.tdiv (sumTempBits temps) temps.length)) := rfl

/-- C9: `Ds18b20Thermometer::read` returns `Timeout` exactly when the
collection of successfully-read temperatures is empty, i.e. when no
sensors are registered (given that lower layers never produce `Timeout`
themselves); with at least one sensor and no lower-layer error it
returns the arithmetic mean, the bit-sum divided by the sensor count;
and the first lower-layer error from an individual sensor read, or from
the broadcast convert command, propagates unchanged. -/
theorem claim_C9_aggregate_read :
    ∀ (reads : List (Except OWError Int)),
      ((∀ e : OWError, (Except.error e) ∈ reads → e ≠ .Timeout) →
        ((ds_therm_read (.ok ()) reads = .error .Timeout) ↔ reads = [])) ∧
      (∀ ts : List Int, reads = ts.map .ok → ts ≠ [] →
        ds_therm_read (.ok ()) reads =
          .ok (Int.tdiv (sumTempBits ts) ts.length)) ∧
      (∀ (ts : List Int) (e : OWError) (rest : List (Except OWError Int)),
        reads = ts.map .ok ++ .error e :: rest →
        ds_therm_read (.ok ()) reads = .error e) ∧
      (∀ e : OWError, ds_therm_read (.error e) reads = .error e) := by
  intro reads
  refine ⟨?_, ?_, ?_, fun e => rfl⟩
  · intro hnoTimeout
    constructor
    · intro h
      cases hcol : collectTemps reads with
      | error e =>
        rw [ds_therm_read_collected reads, hcol] at h
        have h2 : e = OWError.Timeout := by
          exact Except.error.inj h
        exact absurd h2 (hnoTimeout e (collectTemps_error_mem reads e hcol))
      | ok ts =>
        rw [ds_therm_read_collected reads, hcol] at h
        by_cases hts : ts.isEmpty
        · have hlen := collectTemps_length reads ts hcol
          rw [List.isEmpty_iff] at hts
          subst hts
          simp only [List.length_nil] at hlen
          exact (List.length_eq_zero.mp hlen.symm)
        · have h2 : (if ts.isEmpty then (Except.error OWError.Timeout : Except OWError Int)
              else .ok (Int.tdiv (sumTempBits ts) ts.length)) =
              .error .Timeout := h
          rw [if_neg hts] at h2
          simp at h2
    · intro h
      subst h
      rfl
  · intro ts hreads htsne
    subst hreads
    rw [ds_therm_read_collected, collectTemps_all_ok ts]
    show (if ts.isEmpty then (Except.error OWError.Timeout : Except OWError Int)
          else .ok (Int.tdiv (sumTempBits ts) ts.length)) = _
    rw [if_neg (by simpa [List.isEmpty_iff] using htsne)]
  · intro ts e rest hreads
    subst hreads
    rw [ds_therm_read_collected, collectTemps_first_error ts e rest]

theorem claim_C9_aggregate_read_witness :
    (ds_therm_read (.ok ()) [] = .error .Timeout) ∧
    ds_therm_read (.ok ()) [.ok 80, .ok 90] = .ok 85 ∧
    ds_therm_read (.ok ()) [.ok 80, .error .CrcMismatch, .ok 90] =
      .error .CrcMismatch :=
  ⟨((claim_C9_aggregate_read []).1 (fun e he => absurd he (by simp))).mpr rfl,
   by
    have h := (claim_C9_aggregate_read [.ok 80, .ok 90]).2.1 [80, 90] rfl
      (by decide)
    rw [h]
    rfl,
   (claim_C9_aggregate_read [.ok 80, .error .CrcMismatch, .ok 90]).2.2.1
     [80] .CrcMismatch [.ok 90] rfl⟩

/-- Event codes of src/storage/mod.rs (enum `EventCode`). -/
inductive EventCode where
  | Unknown
  | TempSensorError
  | TempSensorResolutionChanged
  | PidError
  | PidTargetChanged
  | PidParamsChanged
  deriving DecidableEq, Repr

/-- Modelled from the spec: `Resolution::as_str` is called from
src/temp_controller.rs line 52 but its definition is absent from the
snapshot; only that it yields some fixed message per variant matters
here. -/
def Resolution.as_str : Resolution → String
  | .Bits9 => "9 bits"
  | .Bits10 => "10 bits"
  | .Bits11 => "11 bits"
  | .Bits12 => "12 bits"

/-- An event record sent through the event channel: the `StoredEvent`
code and message of src/storage/mod.rs (the timestamp is environmental
and omitted). -/
structure StoredEventM where
  code : EventCode
  msg : String
  deriving DecidableEq, Repr

/-- One iteration of the control-loop activity `temp_controller`
(src/temp_controller.rs lines 35-69), as a function of the carried
`last_res`, the shared `resolution`, and the outcomes of the two
fallible steps: the `set_resolution` call (consulted only when
`last_res != Some(resolution)`) and the `temp_controller_inner`
measurement/actuation step.  Returns the new `last_res` and the event
records sent through the event channel this cycle; the function is
total — no error escapes the iteration, after which the source adds the
period to the previous deadline and suspends until it. -/
def temp_controller_cycle (last_res : Option Resolution)
    (resolution : Resolution) (setRes inner : Except OWError Unit) :
    Option Resolution × List StoredEventM :=
  let step1 :=
    if last_res ≠ some resolution then
      match setRes with
      | .error e => ((none : Option Resolution), [⟨.TempSensorError, e.as_str⟩])
      | .ok _ => (some resolution, [⟨.TempSensorResolutionChanged, resolution.as_str⟩])
    else (last_res, [])
  match inner with
  | .error e => (step1.1, step1.2 ++ [⟨.TempSensorError, e.as_str⟩])
  | .ok _ => (step1.1, step1.2)

/-- C8: every cycle of the control-loop activity catches its sensor/bus
errors instead of propagating them (the cycle is a total function into
state and events): a failed resolution write logs a `TempSensorError`
event and clears the remembered resolution to `none` — and `none` is
never equal to `some r`, so the write is attempted again on every
subsequent cycle until it succeeds; a failed measurement step logs a
`TempSensorError` event and the cycle still completes; a successful
write records the applied resolution and logs the change; when the
remembered resolution already matches, no write event occurs and the
cycle result is determined by the measurement step alone. -/
theorem claim_C8_loop_error_handling :
    ∀ (last_res : Option Resolution) (resolution : Resolution)
      (setRes inner : Except OWError Unit),
      (∀ e, last_res ≠ some resolution → setRes = .error e →
        (temp_controller_cycle last_res resolution setRes inner).1 = none ∧
        (⟨.TempSensorError, e.as_str⟩ : StoredEventM) ∈
          (temp_controller_cycle last_res resolution setRes inner).2) ∧
      (∀ e, inner = .error e →
        (⟨.TempSensorError, e.as_str⟩ : StoredEventM) ∈
          (temp_controller_cycle last_res resolution setRes inner).2) ∧
      (last_res ≠ some resolution → setRes = .ok () →
        (temp_controller_cycle last_res resolution setRes inner).1 = some resolution ∧
        (⟨.TempSensorResolutionChanged, resolution.as_str⟩ : StoredEventM) ∈
          (temp_controller_cycle last_res resolution setRes inner).2) ∧
      (∀ r : Resolution, (none : Option Resolution) ≠ some r) ∧
      (temp_controller_cycle (some resolution) resolution setRes inner =
        (some resolution,
         match inner with
         | .error e => [⟨.TempSensorError, e.as_str⟩]
         | .ok _ => [])) := by
  intro last_res resolution setRes inner
  refine ⟨?_, ?_, ?_, fun r => by simp, ?_⟩
  · intro e hne hse
    subst hse
    cases inner <;> simp [temp_controller_cycle, hne]
  · intro e hin
    subst hin
    by_cases hne : last_res ≠ some resolution
    · cases setRes <;> simp [temp_controller_cycle, hne]
    · simp [temp_controller_cycle, hne]
  · intro hne hse
    subst hse
    cases inner <;> simp [temp_controller_cycle, hne]
  · cases inner <;> simp [temp_controller_cycle]

theorem claim_C8_loop_error_handling_witness :
    (temp_controller_cycle none .Bits12 (.error .CrcMismatch)
        (.error .BusNotHigh)).1 = none ∧
    (⟨.TempSensorError, OWError.CrcMismatch.as_str⟩ : StoredEventM) ∈
      (temp_controller_cycle none .Bits12 (.error .CrcMismatch)
        (.error .BusNotHigh)).2 ∧
    (⟨.TempSensorError, OWError.BusNotHigh.as_str⟩ : StoredEventM) ∈
      (temp_controller_cycle none .Bits12 (.error .CrcMismatch)
        (.error .BusNotHigh)).2 ∧
    (temp_controller_cycle none .Bits12 (.ok ()) (.ok ())).1 = some .Bits12 :=
  ⟨((claim_C8_loop_error_handling none .Bits12 (.error .CrcMismatch)
      (.error .BusNotHigh)).1 .CrcMismatch (by simp) rfl).1,
   ((claim_C8_loop_error_handling none .Bits12 (.error .CrcMismatch)
      (.error .BusNotHigh)).1 .CrcMismatch (by simp) rfl).2,
   (claim_C8_loop_error_handling none .Bits12 (.error .CrcMismatch)
      (.error .BusNotHigh)).2.1 .BusNotHigh rfl,
   ((claim_C8_loop_error_handling none .Bits12 (.ok ())
      (.ok ())).2.2.1 (by simp) rfl).1⟩

/-- A bounded message channel: capacity and the queue of pending
values.  Models the channel created by the rtic-sync `make_channel!`
macro (an external dependency of the crate). -/
structure Channel (α : Type) where
  capacity : Nat
  queue : List α
  deriving DecidableEq, Repr

/-- The rtic-sync `Sender::send` used by the control loop: enqueue at
the back when the queue has room; on a full queue the call suspends the
producer until the receiver frees space — modelled as `none`, no
completed send without receiver progress.  Nothing is dropped and
values keep FIFO order (semantics of the external rtic-sync bounded
channel; its source is not part of the snapshot). -/
def Channel.sendStep {α : Type} (c : Channel α) (v : α) : Option (Channel α) :=
  if c.queue.length < c.capacity then some { c with queue := c.queue ++ [v] }
  else none

/-- Receiving from the bounded channel: the oldest pending value, if
any. -/
def Channel.recv {α : Type} (c : Channel α) : Option (α × Channel α) :=
  match c.queue with
  | [] => none
  | x :: xs => some (x, { c with queue := xs })

/-- Modelled from the spec: the claimed latest-wins send — on a full
channel the stale pending value is dropped and the newer value becomes
pending; the call never suspends.  Stated only to contrast with the
suspending send the code performs. -/
def Channel.latestWinsSend {α : Type} (c : Channel α) (v : α) : Channel α :=
  if c.queue.length < c.capacity then { c with queue := c.queue ++ [v] }
  else { c with queue := c.queue.drop 1 ++ [v] }

/-- The send of the control loop into the latest-temperature channel:
src/temp_controller.rs line 99 calls the suspending
`cx.local.tx.send(temp).await` on the capacity-1 channel made at
src/main.rs line 151; values are `Temperature` bits. -/
def tempControllerSendTemp (c : Channel Int) (t : Int) : Option (Channel Int) :=
  c.sendStep t

/-- C4 counterexample: with 85 degrees (1360 sixteenths) pending and
unconsumed in the capacity-1 channel, sending 90 degrees (1440) does
not complete — the producer suspends — and the next receive observes
the stale 1360, not the newer 1440; the spec's latest-wins model would
instead have replaced the pending value. -/
theorem claim_C4_counterexample :
    tempControllerSendTemp ⟨1, [1360]⟩ 1440 = none ∧
    (Channel.recv (⟨1, [1360]⟩ : Channel Int)).map Prod.fst = some 1360 ∧
    ¬ (Channel.recv (⟨1, [1360]⟩ : Channel Int)).map Prod.fst = some 1440 ∧
    Channel.latestWinsSend ⟨1, [1360]⟩ 1440 = ⟨1, [1440]⟩ := by
  refine ⟨rfl, rfl, by decide, rfl⟩

/-- C4 (amended): sending into the full capacity-1 latest-temperature
channel suspends the producing control-loop activity until the receiver
frees space; the pending (older) value is not dropped and is the one
observed by the next receive, in FIFO order; once the receiver has
consumed it, the send completes and enqueues the newer value. -/
theorem claim_C4_send_suspends :
    ∀ (c : Channel Int) (v : Int),
      (c.queue.length = c.capacity → tempControllerSendTemp c v = none) ∧
      (∀ x xs, c.queue = x :: xs → c.recv = some (x, { c with queue := xs })) ∧
      (c.queue.length < c.capacity →
        tempControllerSendTemp c v = some { c with queue := c.queue ++ [v] }) := by
  intro c v
  refine ⟨?_, ?_, ?_⟩
  · intro hfull
    simp [tempControllerSendTemp, Channel.sendStep, hfull]
  · intro x xs hq
    simp [Channel.recv, hq]
  · intro hroom
    simp [tempControllerSendTemp, Channel.sendStep, hroom]

theorem claim_C4_send_suspends_witness :
    tempControllerSendTemp ⟨1, [1360]⟩ 1440 = none ∧
    Channel.recv (⟨1, [1360]⟩ : Channel Int) = some (1360, ⟨1, []⟩) ∧
    tempControllerSendTemp ⟨1, []⟩ 1440 = some ⟨1, [1440]⟩ :=
  ⟨(claim_C4_send_suspends ⟨1, [1360]⟩ 1440).1 rfl,
   by
    have h := (claim_C4_send_suspends ⟨1, [1360]⟩ 1440).2.1 1360 [] rfl
    simpa using h,
   by
    have h := (claim_C4_send_suspends ⟨1, []⟩ 1440).2.2 (by decide)
    simpa using h⟩

end RticFridge
